import Mathlib

/-!
Verification of the Squnch compression API route
(src/app/api/[[...path]]/route.js) against its specification.
The route's pure decision logic and the asynchronous video-job record
updates are embedded as executable Lean definitions; the external codecs
(sharp, ffmpeg), the database driver and the HTTP layer are out of scope
and appear only through their observable effects (callback events, stored
documents, response status codes).
-/

namespace Squnch

/-- JavaScript's Math.round on an exact rational: round half toward
positive infinity, i.e. the floor of the argument plus one half. -/
def jsRound (q : ℚ) : ℤ := ⌊q + 1/2⌋

/-- Image settings of a quality preset (route.js lines 49-68). -/
structure ImageSettings where
  quality : ℕ
  format : String
deriving DecidableEq, Repr

/-- Video settings of a quality preset (route.js lines 49-68). -/
structure VideoSettings where
  crf : ℕ
  preset : String
  audioBitrate : String
deriving DecidableEq, Repr

/-- One entry of the QUALITY_PRESETS table. -/
structure QualityPreset where
  name : String
  description : String
  image : ImageSettings
  video : VideoSettings
deriving DecidableEq, Repr

/-- The QUALITY_PRESETS table (route.js lines 49-68); indexing a JS object
with an unknown key yields undefined, modelled as none. -/
def QUALITY_PRESETS : String → Option QualityPreset
  | "high-quality" =>
      some ⟨"High Quality", "Best quality, larger files",
            ⟨95, "preserve"⟩, ⟨18, "slow", "192k"⟩⟩
  | "balanced" =>
      some ⟨"Balanced", "Great quality, good compression",
            ⟨85, "smart"⟩, ⟨23, "medium", "128k"⟩⟩
  | "maximum-compression" =>
      some ⟨"Maximum Compression", "Smallest files, good quality",
            ⟨75, "smart"⟩, ⟨28, "fast", "96k"⟩⟩
  | _ => none

/-- getOptimalFormat (route.js lines 114-132). Accessing .image on an
undefined preset throws a TypeError, modelled as Except.error. -/
def getOptimalFormat (originalFormat : String) (fileSize : ℕ)
    (qualityPreset : String) : Except String String :=
  match QUALITY_PRESETS qualityPreset with
  | none => .error "TypeError: Cannot read properties of undefined"
  | some preset =>
    if preset.image.format ≠ "smart" then
      .ok (if originalFormat = "image/png" then "png" else "jpeg")
    else if originalFormat = "image/png" then
      .ok (if 500000 < fileSize then "jpeg" else "png")
    else
      .ok "jpeg"

/-- The qualityPreset field resolution inside getFileFromFormData
(route.js line 77): formData.get returns null when the field is absent, and
the JS or-default replaces null or the empty string by the literal default
name. An unrecognized non-empty name passes through unchanged. -/
def resolvePresetName (supplied : Option String) : String :=
  match supplied with
  | none => "balanced"
  | some s => if s = "" then "balanced" else s

/-- A file carried in multipart form data: its name and its byte count
(the length of the buffer the route builds from it). -/
structure FormFile where
  name : String
  size : ℕ
deriving DecidableEq, Repr

/-- What getFileFromFormData hands back on success. -/
structure FormFields where
  file : FormFile
  fileId : Option String
  qualityPreset : String
  batchId : Option String
deriving DecidableEq, Repr

/-- getFileFromFormData (route.js lines 71-111): the only validation is the
presence check on the file field; the thrown message is wrapped by the
function's own catch clause before the route turns it into a response.
No empty-file or maximum-size check exists in this function. -/
def getFileFromFormData (file : Option FormFile) (fileId : Option String)
    (qualityPreset : Option String) (batchId : Option String) :
    Except String FormFields :=
  match file with
  | none => .error "Failed to parse form data: No file provided"
  | some f => .ok ⟨f, fileId, resolvePresetName qualityPreset, batchId⟩

/-- The format-relevant outcome of compressImage. -/
structure ImageResult where
  originalFormat : String
  outputFormat : String
  formatChanged : Bool
deriving DecidableEq, Repr

/-- Format and preset resolution of compressImage (route.js lines 135-174);
the sharp call itself is the out-of-scope codec. The original format is
derived from the lower-cased file name containing ".png"; an unknown preset
crashes inside getOptimalFormat and the catch clause wraps the message. -/
def compressImage (fileName : String) (size : ℕ) (qualityPreset : String) :
    Except String ImageResult :=
  let originalFormat :=
    if ".png".toList <:+: fileName.toLower.toList
    then "image/png" else "image/jpeg"
  match getOptimalFormat originalFormat size qualityPreset with
  | .error e => .error ("Image compression failed: " ++ e)
  | .ok optimalFormat =>
      .ok ⟨originalFormat, optimalFormat,
           originalFormat != "image/" ++ optimalFormat⟩

/-- Status code and error body of the /compress/image route
(route.js lines 382-452), as far as validation and preset resolution go:
any thrown error becomes a 500 JSON response carrying the message, a
successful compression a 200 response. -/
def imageSubmitResponse (file : Option FormFile) (fileId : Option String)
    (qualityPreset : Option String) (batchId : Option String) : ℕ × String :=
  match getFileFromFormData file fileId qualityPreset batchId with
  | .error msg => (500, msg)
  | .ok fields =>
    match compressImage fields.file.name fields.file.size fields.qualityPreset with
    | .error msg => (500, msg)
    | .ok _ => (200, "")

/-- The preset lookup at the top of compressVideo (route.js lines 181-187):
the first dereference of an undefined preset throws inside the promise body,
before any job record is written, and the promise rejects. -/
def compressVideoSetup (qualityPreset : String) : Except String QualityPreset :=
  match QUALITY_PRESETS qualityPreset with
  | none => .error "TypeError: Cannot read properties of undefined"
  | some p => .ok p

/-- The status strings stored in compression_progress documents. -/
inductive JobStatus
  | processing
  | completed
  | error
deriving DecidableEq, Repr

/-- The string a status renders to in the stored document. -/
def statusText : JobStatus → String
  | .processing => "processing"
  | .completed => "completed"
  | .error => "error"

/-- The compression_progress document the progress endpoint serves, one per
fileId. The two Date fields are kept as set-flags, since only their
presence matters to the spec. -/
structure JobRecord where
  fileId : String
  status : JobStatus
  progress : ℤ
  originalSize : ℕ
  qualityPreset : String
  presetName : String
  startTimeSet : Bool
  currentFps : Option ℚ := none
  currentKbps : Option ℚ := none
  processedTime : Option String := none
  compressedSize : Option ℕ := none
  compressionRatio : Option ℤ := none
  endTimeSet : Bool := false
  downloadUrl : Option String := none
  error : Option String := none
deriving DecidableEq, Repr

/-- The percent clamp of the progress handler (route.js line 237):
Math.min(Math.round(percent or 0), 99). -/
def progressPercent (percent : Option ℚ) : ℤ :=
  min (jsRound (percent.getD 0)) 99

/-- compressionRatio as computed by the video end handler (route.js
line 259) and for image analytics (line 396):
Math.round of (1 - compressedSize/originalSize) * 100. -/
def compressionRatioOf (originalSize compressedSize : ℕ) : ℤ :=
  jsRound ((1 - (compressedSize : ℚ) / (originalSize : ℚ)) * 100)

/-- The initial replaceOne document (route.js lines 190-202). -/
def initRecord (fileId : String) (originalSize : ℕ)
    (qualityPreset presetName : String) : JobRecord :=
  { fileId := fileId, status := .processing, progress := 0,
    originalSize := originalSize, qualityPreset := qualityPreset,
    presetName := presetName, startTimeSet := true }

/-- The progress handler's updateOne document (route.js lines 239-250). -/
def applyProgress (r : JobRecord) (percent : Option ℚ) (fps kbps : Option ℚ)
    (timemark : Option String) : JobRecord :=
  { r with progress := progressPercent percent, status := .processing,
           currentFps := fps, currentKbps := kbps, processedTime := timemark }

/-- The end handler's updateOne document (route.js lines 261-273), with the
closure's fileId and originalSize. -/
def applyEnd (fileId : String) (originalSize compressedSize : ℕ)
    (r : JobRecord) : JobRecord :=
  { r with status := .completed, progress := 100,
           compressedSize := some compressedSize,
           compressionRatio := some (compressionRatioOf originalSize compressedSize),
           endTimeSet := true,
           downloadUrl := some ("/api/download/" ++ fileId) }

/-- The error handler's updateOne document (route.js lines 288-297). -/
def applyError (msg : String) (r : JobRecord) : JobRecord :=
  { r with status := .error, error := some msg, endTimeSet := true }

/-- The callbacks one fluent-ffmpeg invocation fires: progress events carry
an optional percent plus throughput stats; ended carries whether fs.stat of
the output succeeded (statOk false models a stat failure, which rejects the
promise without writing the record) and the measured output size; errored
carries the message. -/
inductive FfmpegEvent
  | progress (percent : Option ℚ) (fps kbps : Option ℚ) (timemark : Option String)
  | ended (statOk : Bool) (outputSize : ℕ)
  | errored (msg : String)
deriving DecidableEq, Repr

/-- Whether an event is one of the two terminal callbacks. -/
def FfmpegEvent.isTerminal : FfmpegEvent → Bool
  | .progress .. => false
  | .ended .. => true
  | .errored _ => true

/-- The percent a progress event writes from, after the or-default of
route.js line 237; terminal events carry none. -/
def FfmpegEvent.percentValue : FfmpegEvent → ℚ
  | .progress p .. => p.getD 0
  | _ => 0

/-- One callback's effect on the job record (route.js lines 235-311). -/
def step (fileId : String) (originalSize : ℕ) (r : JobRecord) :
    FfmpegEvent → JobRecord
  | .progress p fps kbps tm => applyProgress r p fps kbps tm
  | .ended true cs => applyEnd fileId originalSize cs r
  | .ended false _ => r
  | .errored msg => applyError msg r

/-- The record after the initial replaceOne and a sequence of callbacks. -/
def runTrace (fileId : String) (originalSize : ℕ)
    (qualityPreset presetName : String) (events : List FfmpegEvent) : JobRecord :=
  events.foldl (step fileId originalSize)
    (initRecord fileId originalSize qualityPreset presetName)

/-- Every record state a callback sequence passes through, in order. -/
def statusTrace (fileId : String) (originalSize : ℕ)
    (qualityPreset presetName : String) (events : List FfmpegEvent) :
    List JobStatus :=
  (List.scanl (step fileId originalSize)
    (initRecord fileId originalSize qualityPreset presetName) events).map
    JobRecord.status

/-- The transitions the spec's state machine allows: stay put, or leave
processing for one of the two terminal states. -/
def allowedTransition (s t : JobStatus) : Prop :=
  s = t ∨ (s = .processing ∧ (t = .completed ∨ t = .error))

instance : DecidableRel allowedTransition := fun _ _ => by
  unfold allowedTransition; infer_instance

/-- Presence of the two per-job temporary files. -/
structure TempFiles where
  inputExists : Bool
  outputExists : Bool
deriving DecidableEq, Repr

/-- The full end handler (route.js lines 255-284): it writes the completed
record and deletes no file at all. -/
def endHandler (fileId : String) (originalSize compressedSize : ℕ)
    (r : JobRecord) (files : TempFiles) : JobRecord × TempFiles :=
  (applyEnd fileId originalSize compressedSize r, files)

/-- The full error handler (route.js lines 285-311): the record update,
then best-effort unlink of both temporary files; a failing unlink
(unlinkFails true) is swallowed and leaves the files in place, and in no
case does cleanup touch the record. -/
def errorHandler (msg : String) (r : JobRecord) (files : TempFiles)
    (unlinkFails : Bool) : JobRecord × TempFiles :=
  (applyError msg r, if unlinkFails then files else ⟨false, false⟩)

/-- One entry of a batch document's files array. -/
structure BatchFileEntry where
  fileId : String
  fileName : String
  originalSize : ℕ
  compressedSize : ℕ
  saved : ℤ
deriving DecidableEq, Repr

/-- The batch_progress document. -/
structure BatchRecord where
  batchId : String
  fileCount : ℕ
  totalSize : ℕ
  processedFiles : ℕ
  totalSaved : ℤ
  files : List BatchFileEntry
deriving DecidableEq, Repr

/-- The document /batch/start inserts (route.js lines 347-356). -/
def startBatch (batchId : String) (fileCount totalSize : ℕ) : BatchRecord :=
  { batchId := batchId, fileCount := fileCount, totalSize := totalSize,
    processedFiles := 0, totalSaved := 0, files := [] }

/-- The batch updateOne run when a job of the batch completes (route.js
lines 409-430 for images, 482-502 for videos): increment processedFiles
by 1, add the savings to totalSaved only when positive, and push the raw
per-file entry with the possibly negative saved difference. -/
def batchComplete (b : BatchRecord) (fileId fileName : String)
    (originalSize compressedSize : ℕ) : BatchRecord :=
  let savedBytes : ℤ := (originalSize : ℤ) - (compressedSize : ℤ)
  { b with processedFiles := b.processedFiles + 1,
           totalSaved := b.totalSaved + (if 0 < savedBytes then savedBytes else 0),
           files := b.files ++
             [⟨fileId, fileName, originalSize, compressedSize, savedBytes⟩] }

/-- What the /download/fileId handler responds with. -/
inductive DownloadResult
  | fileResponse (status : ℕ)
  | jsonError (status : ℕ) (message : String)
deriving DecidableEq, Repr

/-- The /download/fileId handler (route.js lines 571-616), as a function of
the stored record and whether the conventional output file exists. -/
def download (record : Option JobRecord) (outputFileExists : Bool) :
    DownloadResult :=
  match record with
  | none => .jsonError 404 "File not ready for download. Status: not found"
  | some r =>
    if r.status ≠ .completed then
      .jsonError 404 ("File not ready for download. Status: " ++ statusText r.status)
    else if outputFileExists then
      .fileResponse 200
    else
      .jsonError 404 "Compressed file not found"

/-! ### Helper lemmas about callback traces -/

/-- A non-terminal event is a progress event. -/
theorem eq_progress_of_not_terminal {e : FfmpegEvent} (h : e.isTerminal = false) :
    ∃ p fps kbps tm, e = .progress p fps kbps tm := by
  cases e with
  | progress p fps kbps tm => exact ⟨p, fps, kbps, tm, rfl⟩
  | ended s o => simp [FfmpegEvent.isTerminal] at h
  | errored m => simp [FfmpegEvent.isTerminal] at h

/-- A progress write leaves the record in processing. -/
theorem step_status_of_not_terminal (fid : String) (os : ℕ) (r : JobRecord)
    {e : FfmpegEvent} (h : e.isTerminal = false) :
    (step fid os r e).status = .processing := by
  obtain ⟨p, fps, kbps, tm, rfl⟩ := eq_progress_of_not_terminal h
  rfl

/-- Folding only progress events keeps the status at processing. -/
theorem foldl_status_processing (fid : String) (os : ℕ) (l : List FfmpegEvent) :
    ∀ r : JobRecord, (∀ x ∈ l, x.isTerminal = false) → r.status = .processing →
      (l.foldl (step fid os) r).status = .processing := by
  induction l with
  | nil => exact fun r _ hr => hr
  | cons e l ih =>
      intro r hl hr
      exact ih _ (fun x hx => hl x (List.mem_cons_of_mem _ hx))
        (step_status_of_not_terminal fid os r (hl e (List.mem_cons_self e l)))

/-- The clamp never writes more than 99. -/
theorem progressPercent_le (p : Option ℚ) : progressPercent p ≤ 99 :=
  min_le_right _ _

/-- Folding only progress events keeps the stored progress at most 99. -/
theorem foldl_progress_le (fid : String) (os : ℕ) (l : List FfmpegEvent) :
    ∀ r : JobRecord, (∀ x ∈ l, x.isTerminal = false) → r.progress ≤ 99 →
      (l.foldl (step fid os) r).progress ≤ 99 := by
  induction l with
  | nil => exact fun r _ hr => hr
  | cons e l ih =>
      intro r hl hr
      obtain ⟨p, fps, kbps, tm, rfl⟩ :=
        eq_progress_of_not_terminal (hl e (List.mem_cons_self e l))
      exact ih _ (fun x hx => hl x (List.mem_cons_of_mem _ hx)) (progressPercent_le p)

/-- Progress events never change the originalSize or error fields. -/
theorem foldl_fields_of_progress (fid : String) (os : ℕ) (l : List FfmpegEvent) :
    ∀ r : JobRecord, (∀ x ∈ l, x.isTerminal = false) →
      (l.foldl (step fid os) r).originalSize = r.originalSize ∧
      (l.foldl (step fid os) r).error = r.error := by
  induction l with
  | nil => exact fun r _ => ⟨rfl, rfl⟩
  | cons e l ih =>
      intro r hl
      obtain ⟨p, fps, kbps, tm, rfl⟩ :=
        eq_progress_of_not_terminal (hl e (List.mem_cons_self e l))
      exact ih _ (fun x hx => hl x (List.mem_cons_of_mem _ hx))

/-- Out of processing, every move the handlers can make is allowed. -/
theorem allowedTransition_of_processing (t : JobStatus) :
    allowedTransition .processing t := by
  cases t with
  | processing => exact Or.inl rfl
  | completed => exact Or.inr ⟨rfl, Or.inl rfl⟩
  | error => exact Or.inr ⟨rfl, Or.inr rfl⟩

/-- Scanning a record in processing through progress events and one final
event only makes allowed transitions. -/
theorem chain_scanl_of_processing (fid : String) (os : ℕ) (l : List FfmpegEvent) :
    ∀ r : JobRecord, (∀ x ∈ l, x.isTerminal = false) → r.status = .processing →
    ∀ t : FfmpegEvent,
      List.Chain' allowedTransition
        ((List.scanl (step fid os) r (l ++ [t])).map JobRecord.status) := by
  induction l with
  | nil =>
      intro r _ hr t
      simp only [List.nil_append, List.scanl_cons, List.scanl_nil,
        List.singleton_append, List.map_cons, List.map_nil]
      exact List.chain'_cons.mpr
        ⟨hr ▸ allowedTransition_of_processing _, List.chain'_singleton _⟩
  | cons e l ih =>
      intro r hl hr t
      rw [List.cons_append, List.scanl_cons, List.singleton_append, List.map_cons]
      refine List.chain'_cons'.mpr ⟨fun y _ => ?_,
        ih _ (fun x hx => hl x (List.mem_cons_of_mem _ hx))
          (step_status_of_not_terminal fid os r (hl e (List.mem_cons_self e l))) t⟩
      rw [hr]
      exact allowedTransition_of_processing y

/-- Claim C1: assuming the callbacks of one video job fire as zero or more
progress events followed by exactly one terminal end or error event, every
transition of the stored status is processing to processing, processing to
completed or processing to error, and every state before the terminal event
is still processing, so no callback ever leaves a terminal state. -/
theorem video_status_machine (fid : String) (os : ℕ) (qp pn : String)
    (ps : List FfmpegEvent) (t : FfmpegEvent)
    (hps : ∀ x ∈ ps, x.isTerminal = false) (ht : t.isTerminal = true) :
    List.Chain' allowedTransition (statusTrace fid os qp pn (ps ++ [t])) ∧
    ∀ pre, pre <+: ps → (runTrace fid os qp pn pre).status = .processing := by
  constructor
  · exact chain_scanl_of_processing fid os ps _ hps rfl t
  · intro pre hpre
    exact foldl_status_processing fid os pre _
      (fun x hx => hps x (hpre.subset hx)) rfl

/-- Witness for C1 at a concrete two-event trace. -/
theorem video_status_machine_witness :
    List.Chain' allowedTransition (statusTrace "vid" 1000 "balanced" "Balanced"
      ([FfmpegEvent.progress (some 50) none none none] ++
        [FfmpegEvent.ended true 800])) ∧
    ∀ pre, pre <+: [FfmpegEvent.progress (some 50) none none none] →
      (runTrace "vid" 1000 "balanced" "Balanced" pre).status = .processing :=
  video_status_machine "vid" 1000 "balanced" "Balanced"
    [FfmpegEvent.progress (some 50) none none none] (FfmpegEvent.ended true 800)
    (by decide) (by decide)

/-- Rounding is monotone. -/
theorem jsRound_mono {a b : ℚ} (h : a ≤ b) : jsRound a ≤ jsRound b :=
  Int.floor_mono (by linarith)

/-- The clamp is monotone in the coalesced percent. -/
theorem progressPercent_mono {a b : Option ℚ} (h : a.getD 0 ≤ b.getD 0) :
    progressPercent a ≤ progressPercent b :=
  min_le_min (jsRound_mono h) le_rfl

/-- A nonnegative percent writes a nonnegative progress. -/
theorem progressPercent_nonneg {p : Option ℚ} (h : 0 ≤ p.getD 0) :
    0 ≤ progressPercent p := by
  refine le_min (Int.le_floor.mpr ?_) (by norm_num)
  push_cast
  linarith

/-- The progress stored after a trace ending in a progress event is that
event's clamped percent. -/
theorem foldl_progress_concat (fid : String) (os : ℕ) (r : JobRecord)
    (l : List FfmpegEvent) (p : Option ℚ) (fps kbps : Option ℚ)
    (tm : Option String) :
    ((l ++ [FfmpegEvent.progress p fps kbps tm]).foldl (step fid os) r).progress
      = progressPercent p := by
  rw [List.foldl_append]
  rfl

/-- Monotonicity of observed progress across the progress-only part of a
trace with nondecreasing nonnegative percents. -/
theorem runTrace_progress_mono (fid : String) (os : ℕ) (qp pn : String)
    (ps : List FfmpegEvent)
    (hps : ∀ x ∈ ps, x.isTerminal = false)
    (hmono : (ps.map FfmpegEvent.percentValue).Pairwise (· ≤ ·))
    (hnonneg : ∀ q ∈ ps.map FfmpegEvent.percentValue, 0 ≤ q)
    (pre1 pre2 : List FfmpegEvent) (h12 : pre1 <+: pre2) (h2 : pre2 <+: ps) :
    (runTrace fid os qp pn pre1).progress ≤ (runTrace fid os qp pn pre2).progress := by
  obtain ⟨mid, rfl⟩ := h12
  rcases mid.eq_nil_or_concat' with rfl | ⟨m, e2, rfl⟩
  · rw [List.append_nil]
  · have he2mem : e2 ∈ ps := h2.subset (by simp)
    obtain ⟨p2, f2, k2, t2, rfl⟩ := eq_progress_of_not_terminal (hps _ he2mem)
    have hsplit : pre1 ++ (m ++ [FfmpegEvent.progress p2 f2 k2 t2])
        = (pre1 ++ m) ++ [FfmpegEvent.progress p2 f2 k2 t2] := by
      rw [List.append_assoc]
    rw [hsplit]
    simp only [runTrace]
    rw [foldl_progress_concat]
    rcases pre1.eq_nil_or_concat' with rfl | ⟨l1, e1, rfl⟩
    · refine le_trans (le_of_eq rfl) (progressPercent_nonneg ?_)
      exact hnonneg _ (List.mem_map_of_mem _ he2mem)
    · have he1mem : e1 ∈ ps := h2.subset (by simp)
      obtain ⟨p1, f1, k1, t1, rfl⟩ := eq_progress_of_not_terminal (hps _ he1mem)
      rw [foldl_progress_concat]
      refine progressPercent_mono ?_
      have hpw : ((l1 ++ [FfmpegEvent.progress p1 f1 k1 t1]) ++
          (m ++ [FfmpegEvent.progress p2 f2 k2 t2])).Pairwise
          (fun a b => FfmpegEvent.percentValue a ≤ FfmpegEvent.percentValue b) :=
        (List.pairwise_map.mp hmono).sublist h2.sublist
      have := (List.pairwise_append.mp hpw).2.2
        (FfmpegEvent.progress p1 f1 k1 t1) (by simp)
        (FfmpegEvent.progress p2 f2 k2 t2) (by simp)
      exact this

/-- A prefix of a list with one appended element is a prefix of the list or
the whole thing. -/
theorem prefix_snoc_cases {α : Type} {pre ps : List α} {t : α}
    (h : pre <+: ps ++ [t]) : pre <+: ps ∨ pre = ps ++ [t] := by
  rcases Nat.lt_or_ge pre.length (ps ++ [t]).length with hlt | hge
  · left
    refine List.prefix_of_prefix_length_le h (List.prefix_append ps [t]) ?_
    have : pre.length < ps.length + 1 := by simpa using hlt
    omega
  · right
    exact h.eq_of_length (le_antisymm h.length_le (by simpa using hge))

/-- Claim C2: while a video job is processing every stored progress value is
an integer at most 99; a stored progress of 100 only ever comes with status
completed, written by the terminal end handler; and when the process emits
nondecreasing nonnegative percentages, polls at any two nested prefixes of
the progress phase never see progress decrease. -/
theorem video_progress_writes (fid : String) (os : ℕ) (qp pn : String)
    (ps : List FfmpegEvent) (t : FfmpegEvent)
    (hps : ∀ x ∈ ps, x.isTerminal = false) (ht : t.isTerminal = true)
    (hmono : (ps.map FfmpegEvent.percentValue).Pairwise (· ≤ ·))
    (hnonneg : ∀ q ∈ ps.map FfmpegEvent.percentValue, 0 ≤ q)
    (pre pre1 pre2 : List FfmpegEvent)
    (hpre : pre <+: ps ++ [t]) (h12 : pre1 <+: pre2) (h2 : pre2 <+: ps) :
    ((runTrace fid os qp pn pre).status = .processing →
      (runTrace fid os qp pn pre).progress ≤ 99) ∧
    ((runTrace fid os qp pn pre).progress = 100 →
      (runTrace fid os qp pn pre).status = .completed) ∧
    (runTrace fid os qp pn pre1).progress ≤ (runTrace fid os qp pn pre2).progress := by
  have h0 : (initRecord fid os qp pn).progress ≤ 99 := by
    norm_num [initRecord]
  have hproc : ∀ l, l <+: ps → (runTrace fid os qp pn l).progress ≤ 99 := by
    intro l hl
    exact foldl_progress_le fid os l _ (fun x hx => hps x (hl.subset hx)) h0
  have hkey : (runTrace fid os qp pn pre).progress ≤ 99 ∨
      ((runTrace fid os qp pn pre).progress = 100 ∧
        (runTrace fid os qp pn pre).status = .completed) := by
    rcases prefix_snoc_cases hpre with hp | rfl
    · exact Or.inl (hproc pre hp)
    · have hstep : runTrace fid os qp pn (ps ++ [t])
          = step fid os (runTrace fid os qp pn ps) t := by
        simp only [runTrace, List.foldl_append, List.foldl_cons, List.foldl_nil]
      rw [hstep]
      cases t with
      | progress p fps kbps tm => simp [FfmpegEvent.isTerminal] at ht
      | ended ok cs =>
          cases ok with
          | true => exact Or.inr ⟨rfl, rfl⟩
          | false => exact Or.inl (hproc ps List.prefix_rfl)
      | errored msg => exact Or.inl (hproc ps List.prefix_rfl)
  refine ⟨?_, ?_,
    runTrace_progress_mono fid os qp pn ps hps hmono hnonneg pre1 pre2 h12 h2⟩
  · intro hstat
    rcases hkey with h | ⟨_, hcomp⟩
    · exact h
    · rw [hcomp] at hstat
      exact absurd hstat (by simp)
  · intro h100
    rcases hkey with h | ⟨_, hcomp⟩
    · omega
    · exact hcomp

/-- Witness for C2 at a concrete trace of two progress events and an end. -/
theorem video_progress_writes_witness :
    ((runTrace "vid" 1000 "balanced" "Balanced"
        ([FfmpegEvent.progress (some 10) none none none,
          FfmpegEvent.progress (some 30) none none none] ++
          [FfmpegEvent.ended true 800])).status = .processing →
      (runTrace "vid" 1000 "balanced" "Balanced"
        ([FfmpegEvent.progress (some 10) none none none,
          FfmpegEvent.progress (some 30) none none none] ++
          [FfmpegEvent.ended true 800])).progress ≤ 99) ∧
    ((runTrace "vid" 1000 "balanced" "Balanced"
        ([FfmpegEvent.progress (some 10) none none none,
          FfmpegEvent.progress (some 30) none none none] ++
          [FfmpegEvent.ended true 800])).progress = 100 →
      (runTrace "vid" 1000 "balanced" "Balanced"
        ([FfmpegEvent.progress (some 10) none none none,
          FfmpegEvent.progress (some 30) none none none] ++
          [FfmpegEvent.ended true 800])).status = .completed) ∧
    (runTrace "vid" 1000 "balanced" "Balanced"
        [FfmpegEvent.progress (some 10) none none none]).progress ≤
      (runTrace "vid" 1000 "balanced" "Balanced"
        [FfmpegEvent.progress (some 10) none none none,
         FfmpegEvent.progress (some 30) none none none]).progress :=
  video_progress_writes "vid" 1000 "balanced" "Balanced"
    [FfmpegEvent.progress (some 10) none none none,
     FfmpegEvent.progress (some 30) none none none]
    (FfmpegEvent.ended true 800) (by decide) (by decide) (by decide) (by decide)
    ([FfmpegEvent.progress (some 10) none none none,
      FfmpegEvent.progress (some 30) none none none] ++
      [FfmpegEvent.ended true 800])
    [FfmpegEvent.progress (some 10) none none none]
    [FfmpegEvent.progress (some 10) none none none,
     FfmpegEvent.progress (some 30) none none none]
    (by decide) (by decide) (by decide)

/-- Claim C3: the terminal end event of a video job patches the record to
exactly status completed, progress 100, the measured compressed size, the
rounded compression ratio, a set endTime and the fileId-derived download
URL, while the rest of the record (originalSize, no error) is untouched. -/
theorem video_completed_patch (fid : String) (os cs : ℕ) (qp pn : String)
    (ps : List FfmpegEvent) (hps : ∀ x ∈ ps, x.isTerminal = false)
    (hos : 0 < os) :
    (runTrace fid os qp pn (ps ++ [.ended true cs])).status = .completed ∧
    (runTrace fid os qp pn (ps ++ [.ended true cs])).progress = 100 ∧
    (runTrace fid os qp pn (ps ++ [.ended true cs])).compressedSize = some cs ∧
    (runTrace fid os qp pn (ps ++ [.ended true cs])).compressionRatio =
      some (jsRound ((1 - (cs : ℚ) / (os : ℚ)) * 100)) ∧
    (runTrace fid os qp pn (ps ++ [.ended true cs])).endTimeSet = true ∧
    (runTrace fid os qp pn (ps ++ [.ended true cs])).downloadUrl =
      some ("/api/download/" ++ fid) ∧
    (runTrace fid os qp pn (ps ++ [.ended true cs])).originalSize = os ∧
    (runTrace fid os qp pn (ps ++ [.ended true cs])).error = none := by
  have hstep : runTrace fid os qp pn (ps ++ [.ended true cs])
      = applyEnd fid os cs (runTrace fid os qp pn ps) := by
    simp only [runTrace, List.foldl_append, List.foldl_cons, List.foldl_nil]
    rfl
  have hfields := foldl_fields_of_progress fid os ps (initRecord fid os qp pn) hps
  rw [hstep]
  exact ⟨rfl, rfl, rfl, rfl, rfl, rfl, hfields.1, hfields.2⟩

/-- Witness for C3 at a one-progress-event trace with sizes 1000 and 800. -/
theorem video_completed_patch_witness :
    (runTrace "vid" 1000 "balanced" "Balanced"
        ([FfmpegEvent.progress (some 40) none none none] ++
          [.ended true 800])).status = .completed ∧
    (runTrace "vid" 1000 "balanced" "Balanced"
        ([FfmpegEvent.progress (some 40) none none none] ++
          [.ended true 800])).progress = 100 ∧
    (runTrace "vid" 1000 "balanced" "Balanced"
        ([FfmpegEvent.progress (some 40) none none none] ++
          [.ended true 800])).compressedSize = some 800 ∧
    (runTrace "vid" 1000 "balanced" "Balanced"
        ([FfmpegEvent.progress (some 40) none none none] ++
          [.ended true 800])).compressionRatio =
      some (jsRound ((1 - (800 : ℚ) / (1000 : ℚ)) * 100)) ∧
    (runTrace "vid" 1000 "balanced" "Balanced"
        ([FfmpegEvent.progress (some 40) none none none] ++
          [.ended true 800])).endTimeSet = true ∧
    (runTrace "vid" 1000 "balanced" "Balanced"
        ([FfmpegEvent.progress (some 40) none none none] ++
          [.ended true 800])).downloadUrl = some ("/api/download/" ++ "vid") ∧
    (runTrace "vid" 1000 "balanced" "Balanced"
        ([FfmpegEvent.progress (some 40) none none none] ++
          [.ended true 800])).originalSize = 1000 ∧
    (runTrace "vid" 1000 "balanced" "Balanced"
        ([FfmpegEvent.progress (some 40) none none none] ++
          [.ended true 800])).error = none :=
  video_completed_patch "vid" 1000 800 "balanced" "Balanced"
    [FfmpegEvent.progress (some 40) none none none] (by decide) (by decide)

/-- Claim C4: the output format of an image submission is decided by the
single branch of getOptimalFormat: the lossy "jpeg" when the preset's image
format mode is smart, the source is "image/png" and its size exceeds
500000 bytes, and otherwise the original format; in particular a PNG of
600000 bytes under balanced becomes jpeg, and at 400000 bytes stays png. -/
theorem smart_format_branch (qp : String) (p : QualityPreset)
    (hp : QUALITY_PRESETS qp = some p) (fmt : String)
    (hfmt : fmt = "image/png" ∨ fmt = "image/jpeg") (size : ℕ) :
    getOptimalFormat fmt size qp =
      .ok (if p.image.format = "smart" ∧ fmt = "image/png" ∧ 500000 < size
           then "jpeg"
           else if fmt = "image/png" then "png" else "jpeg") ∧
    getOptimalFormat "image/png" 600000 "balanced" = .ok "jpeg" ∧
    getOptimalFormat "image/png" 400000 "balanced" = .ok "png" := by
  refine ⟨?_, rfl, rfl⟩
  have hpng : ("image/png" : String) ≠ "image/jpeg" := by decide
  rcases hfmt with rfl | rfl
  · by_cases hsm : p.image.format = "smart"
    · by_cases hsz : 500000 < size
      · simp [getOptimalFormat, hp, hsm, hsz]
      · simp [getOptimalFormat, hp, hsm, hsz]
    · simp [getOptimalFormat, hp, hsm]
  · by_cases hsm : p.image.format = "smart"
    · simp [getOptimalFormat, hp, hsm, hpng.symm]
    · simp [getOptimalFormat, hp, hsm, hpng.symm]

/-- Witness for C4: the balanced preset on a 600000 byte PNG. -/
theorem smart_format_branch_witness :
    getOptimalFormat "image/png" 600000 "balanced" =
      .ok (if ("smart" : String) = "smart" ∧ ("image/png" : String) = "image/png"
            ∧ 500000 < 600000
           then "jpeg"
           else if ("image/png" : String) = "image/png" then "png" else "jpeg") ∧
    getOptimalFormat "image/png" 600000 "balanced" = .ok "jpeg" ∧
    getOptimalFormat "image/png" 400000 "balanced" = .ok "png" :=
  smart_format_branch "balanced"
    ⟨"Balanced", "Great quality, good compression",
      ⟨85, "smart"⟩, ⟨23, "medium", "128k"⟩⟩
    rfl "image/png" (Or.inl rfl) 600000

/-- Counterexample to claim C5: supplying the unrecognized preset name
"ultra" does not fall back to balanced; the name passes through the
or-default untouched, the preset lookup yields undefined, and the image
request ends in a 500 error response instead of being processed. -/
theorem preset_default_counterexample :
    resolvePresetName (some "ultra") = "ultra" ∧
    imageSubmitResponse (some ⟨"photo.png", 1000⟩) none (some "ultra") none =
      (500,
       "Image compression failed: TypeError: Cannot read properties of undefined") := by
  constructor
  · rfl
  · rfl

/-- Claim C5 as amended: an omitted or empty qualityPreset silently defaults
to balanced, but an unrecognized non-empty name is kept as is; with such a
name the preset lookup yields undefined, so the image request fails with a
500 response and the video job setup throws before any record is written. -/
theorem preset_default_amended (s : String) (hne : s ≠ "")
    (hunknown : QUALITY_PRESETS s = none) (f : FormFile) :
    resolvePresetName none = "balanced" ∧
    resolvePresetName (some "") = "balanced" ∧
    resolvePresetName (some s) = s ∧
    (imageSubmitResponse (some f) none (some s) none).1 = 500 ∧
    compressVideoSetup s =
      .error "TypeError: Cannot read properties of undefined" := by
  refine ⟨rfl, rfl, ?_, ?_, ?_⟩
  · simp [resolvePresetName, hne]
  · simp [imageSubmitResponse, getFileFromFormData, resolvePresetName, hne,
      compressImage, getOptimalFormat, hunknown]
  · simp [compressVideoSetup, hunknown]

/-- Witness for the amended C5 at the concrete name "ultra". -/
theorem preset_default_amended_witness :
    resolvePresetName none = "balanced" ∧
    resolvePresetName (some "") = "balanced" ∧
    resolvePresetName (some "ultra") = "ultra" ∧
    (imageSubmitResponse (some ⟨"a.jpg", 5⟩) none (some "ultra") none).1 = 500 ∧
    compressVideoSetup "ultra" =
      .error "TypeError: Cannot read properties of undefined" :=
  preset_default_amended "ultra" (by decide) rfl ⟨"a.jpg", 5⟩

/-- Counterexample to claim C6: a submit request with no file is answered
with status 500, not a 4xx, and the message is the wrapped parse error, not
the validation message verbatim; moreover an empty file and a file of
3000000000 bytes (over the interface's 2 GB maximum) both pass the server's
only check. -/
theorem submit_validation_counterexample :
    imageSubmitResponse none none none none =
      (500, "Failed to parse form data: No file provided") ∧
    ¬ (imageSubmitResponse none none none none).1 < 500 ∧
    (getFileFromFormData (some ⟨"empty.mp4", 0⟩) none none none).toOption.isSome
      = true ∧
    (getFileFromFormData (some ⟨"big.mp4", 3000000000⟩) none none
        none).toOption.isSome = true := by
  refine ⟨rfl, by decide, rfl, rfl⟩

/-- Claim C6 as amended: the only server-side validation of a submit request
is the presence of the file field; a missing file is rejected with status
500 and the wrapped message, and no empty-file or maximum-size check exists
(the 2 GB limit lives only in the client UI). -/
theorem submit_validation_amended (f : Option FormFile)
    (fid qp bid : Option String) :
    ((getFileFromFormData f fid qp bid).toOption.isSome = true ↔
      f.isSome = true) ∧
    getFileFromFormData none fid qp bid =
      .error "Failed to parse form data: No file provided" ∧
    (imageSubmitResponse none fid qp bid).1 = 500 := by
  refine ⟨?_, rfl, rfl⟩
  cases f <;> simp [getFileFromFormData, Except.toOption]

/-- Counterexample to claim C7: after the terminal completed handler runs,
the temporary input file is still present — the end handler deletes no
file at all. -/
theorem cleanup_counterexample :
    (endHandler "vid" 1000 800 (initRecord "vid" 1000 "balanced" "Balanced")
      ⟨true, true⟩).2.inputExists = true := rfl

/-- Claim C7 as amended: on the failed event both temporary files are
deleted best-effort and a cleanup failure never changes the stored outcome;
on the completed event no temporary file is deleted — the input file stays
behind (the output is removed only later by the download path). -/
theorem cleanup_amended (fid : String) (os cs : ℕ) (msg : String)
    (r : JobRecord) (files : TempFiles) (b b' : Bool) :
    (errorHandler msg r files b).1 = applyError msg r ∧
    (errorHandler msg r files b).1 = (errorHandler msg r files b').1 ∧
    (errorHandler msg r files false).2 = ⟨false, false⟩ ∧
    (endHandler fid os cs r files).1 = applyEnd fid os cs r ∧
    (endHandler fid os cs r files).2 = files :=
  ⟨rfl, rfl, rfl, rfl, rfl⟩

/-- Claim C8: starting a batch initializes processedFiles and totalSaved to
zero, every completion of a job of the batch increments processedFiles by
exactly one and adds the clamped nonnegative savings to totalSaved, and the
concrete three-job batch with savings of 100, 200 and -50 bytes ends with
processedFiles 3 and totalSaved 300. -/
theorem batch_aggregation (bid fid fn : String) (ct ts os cs : ℕ)
    (b : BatchRecord) :
    (startBatch bid ct ts).processedFiles = 0 ∧
    (startBatch bid ct ts).totalSaved = 0 ∧
    (batchComplete b fid fn os cs).processedFiles = b.processedFiles + 1 ∧
    (batchComplete b fid fn os cs).totalSaved
      = b.totalSaved + max 0 ((os : ℤ) - (cs : ℤ)) ∧
    (batchComplete (batchComplete (batchComplete (startBatch "batch" 3 3000)
        "f1" "a.png" 1000 900) "f2" "b.png" 1000 800) "f3" "c.png" 1000
        1050).processedFiles = 3 ∧
    (batchComplete (batchComplete (batchComplete (startBatch "batch" 3 3000)
        "f1" "a.png" 1000 900) "f2" "b.png" 1000 800) "f3" "c.png" 1000
        1050).totalSaved = 300 := by
  refine ⟨rfl, rfl, rfl, ?_, by decide, by decide⟩
  simp only [batchComplete]
  congr 1
  split_ifs with h
  · exact (max_eq_right h.le).symm
  · exact (max_eq_left (le_of_not_lt h)).symm

/-- Claim C9: the download endpoint serves the artifact exactly when a record
with status completed exists and the conventional output file is present;
a record with another status yields the 404 not-ready error naming that
status, a missing record yields the 404 error naming status not found, and
a completed record whose artifact is gone yields the 404 not-found error
— never a stale success. -/
theorem download_gating (record : Option JobRecord) (outputFileExists : Bool) :
    (download record outputFileExists = .fileResponse 200 ↔
      (∃ r, record = some r ∧ r.status = .completed) ∧ outputFileExists = true) ∧
    (∀ r, record = some r → r.status ≠ .completed →
      download record outputFileExists =
        .jsonError 404 ("File not ready for download. Status: "
          ++ statusText r.status)) ∧
    (record = none →
      download record outputFileExists =
        .jsonError 404 "File not ready for download. Status: not found") ∧
    (∀ r, record = some r → r.status = .completed → outputFileExists = false →
      download record outputFileExists =
        .jsonError 404 "Compressed file not found") := by
  cases record with
  | none => simp [download]
  | some r =>
      by_cases h : r.status = .completed <;>
        cases outputFileExists <;>
          simp [download, h]

/-- Counterexample to claim C10: an output of 1001 bytes from a 1000 byte
input grows the file, yet the stored compression ratio rounds to 0, not to
a negative number. -/
theorem ratio_not_negative_counterexample :
    1000 < 1001 ∧ compressionRatioOf 1000 1001 = 0 ∧
    ¬ compressionRatioOf 1000 1001 < 0 := by
  have h : compressionRatioOf 1000 1001 = 0 := by
    rw [compressionRatioOf, jsRound, Int.floor_eq_iff]
    norm_num
  exact ⟨by norm_num, h, by rw [h]; decide⟩

/-- Claim C10 as amended: the compression ratio is never clamped at zero
from below but rounded: when compressedSize exceeds originalSize it is
nonpositive, and strictly negative exactly when the growth exceeds half a
percent (200 compressedSize > 201 originalSize); meanwhile the per-file
entry pushed onto the batch's files list keeps the raw negative saved
difference even though totalSaved adds nothing for it. -/
theorem ratio_rounding_amended (os cs : ℕ) (b : BatchRecord) (fid fn : String)
    (hos : 0 < os) (hcs : os < cs) :
    compressionRatioOf os cs ≤ 0 ∧
    (compressionRatioOf os cs < 0 ↔ 201 * os < 200 * cs) ∧
    (batchComplete b fid fn os cs).totalSaved = b.totalSaved ∧
    (batchComplete b fid fn os cs).files =
      b.files ++ [⟨fid, fn, os, cs, (os : ℤ) - (cs : ℤ)⟩] ∧
    (os : ℤ) - (cs : ℤ) < 0 := by
  have hosQ : (0 : ℚ) < (os : ℚ) := by exact_mod_cast hos
  have hcsQ : (os : ℚ) < (cs : ℚ) := by exact_mod_cast hcs
  have h2os : (0 : ℚ) < 2 * (os : ℚ) := by linarith
  have hq : (1 - (cs : ℚ) / (os : ℚ)) * 100 + 1/2
      = (201 * (os : ℚ) - 200 * (cs : ℚ)) / (2 * (os : ℚ)) := by
    field_simp
    ring
  refine ⟨?_, ?_, ?_, ?_, by omega⟩
  · have hlt : compressionRatioOf os cs < 1 := by
      rw [compressionRatioOf, jsRound, Int.floor_lt, hq]
      rw [div_lt_iff h2os]
      push_cast
      linarith
    omega
  · rw [compressionRatioOf, jsRound]
    rw [show ((0 : ℤ)) = ((0 : ℤ)) from rfl, Int.floor_lt, hq, div_lt_iff h2os]
    push_cast
    constructor
    · intro h
      have : 201 * (os : ℚ) < 200 * (cs : ℚ) := by linarith
      exact_mod_cast this
    · intro h
      have : 201 * (os : ℚ) < 200 * (cs : ℚ) := by exact_mod_cast h
      linarith
  · simp only [batchComplete]
    rw [if_neg (by omega), add_zero]
  · simp [batchComplete]

/-- Witness for the amended C10 at sizes 1000 and 1050. -/
theorem ratio_rounding_amended_witness :
    compressionRatioOf 1000 1050 ≤ 0 ∧
    (compressionRatioOf 1000 1050 < 0 ↔ 201 * 1000 < 200 * 1050) ∧
    (batchComplete (startBatch "batch" 1 1000) "f1" "a.mp4" 1000
        1050).totalSaved = (startBatch "batch" 1 1000).totalSaved ∧
    (batchComplete (startBatch "batch" 1 1000) "f1" "a.mp4" 1000 1050).files =
      (startBatch "batch" 1 1000).files ++
        [⟨"f1", "a.mp4", 1000, 1050, (1000 : ℤ) - (1050 : ℤ)⟩] ∧
    (1000 : ℤ) - (1050 : ℤ) < 0 :=
  ratio_rounding_amended 1000 1050 (startBatch "batch" 1 1000) "f1" "a.mp4"
    (by decide) (by decide)

end Squnch
